import Mathlib

/-!
# GridVisualizer: a shallow embedding of `src/GridVisualizer.hh`

The viewer keeps a history of character-grid frames and a cursor `mIndex`
into it.  `processInput` drains the pending SDL events, `render` draws the
frame under the cursor, `run` loops over both until the running flag drops.

Modelling conventions.

* The cursor arithmetic of `processInput` (`mIndex ± speed`,
  `(int)history.size() - 1`) is done on mathematical integers (`Int`).  For
  a history of at most `2^31 - 11` frames every value computed there fits an
  `int` (`keyDown_arithmetic_fits`); longer histories are outside the
  embedding.
* The pixel coordinates of `render` and the tick arithmetic of `update` are
  32-bit: every `int` operation there is followed by `wrapInt32`, the
  two's-complement value the compiled program computes.
* `char` is `Char`, a `std::string` is a `List Char`.
* The SDL renderer is modelled by the trace of drawing calls made on it.
* A read outside a `std::vector` or past the terminator of a
  `std::string` is undefined behaviour; `render` stops there, its trace
  holds the calls made before the read and is marked as not completed.
* The pending event queue polled by `SDL_PollEvent` is a `List Event`.
* The values returned by successive calls of `SDL_GetTicks()` are a
  `List Nat`; `update` spins on them as the source does.
-/

namespace grid_visualizer

/-! ## Data model -/

/-- One frame: `struct GridInfo`.  `H` and `W` are `int` members; the values
outside the `int` range that the type `Int` also holds belong to no frame of
the program. -/
structure GridInfo where
  H : Int
  W : Int
  message : List Char
  field : List (List Char)
  deriving DecidableEq, Repr

/-- The constructor `GridInfo()`: `H(0), W(0)`, empty message and field. -/
def GridInfo.empty : GridInfo := ⟨0, 0, [], []⟩

/-- The constructor `GridInfo(int H, int W)`: the field holds `H` strings of
`W` blanks.  (For a negative argument the C++ constructor throws; the
embedding is used on non-negative sizes only.) -/
def GridInfo.sized (H W : Int) : GridInfo :=
  ⟨H, W, [], List.replicate H.toNat (List.replicate W.toNat ' ')⟩

/-- The viewer state: the data members of `class GridVisualizer` that the
member functions read or write (window, renderer and font handles are
resources of the SDL library and stay outside the embedding). -/
structure GridVisualizer where
  mIsRunning : Bool
  mTicksCount : Int
  history : List GridInfo
  mIndex : Int
  deriving DecidableEq, Repr

/-- The constructor `GridVisualizer()`:
`mIsRunning(true), mTicksCount(0), mIndex(0)` and an empty history. -/
def GridVisualizer.fresh : GridVisualizer := ⟨true, 0, [], 0⟩

/-- The member `addGridInfo`: `history.emplace_back(info)`. -/
def GridVisualizer.addGridInfo (s : GridVisualizer) (info : GridInfo) : GridVisualizer :=
  { s with history := s.history ++ [info] }

/-! ## Events -/

/-- Key code `SDLK_ESCAPE` of SDL2. -/
def SDLK_ESCAPE : Int := 27
/-- Key code `SDLK_a` of SDL2. -/
def SDLK_a : Int := 97
/-- Key code `SDLK_l` of SDL2. -/
def SDLK_l : Int := 108
/-- Key code `SDLK_RIGHT` of SDL2 (scancode 79 with bit 30 set). -/
def SDLK_RIGHT : Int := 1073741903
/-- Key code `SDLK_LEFT` of SDL2 (scancode 80 with bit 30 set). -/
def SDLK_LEFT : Int := 1073741904

/-- Modifier bit `KMOD_LSHIFT` of SDL2. -/
def KMOD_LSHIFT : Nat := 1
/-- Modifier bit `KMOD_RSHIFT` of SDL2. -/
def KMOD_RSHIFT : Nat := 2
/-- Modifier mask `KMOD_SHIFT` of SDL2: `KMOD_LSHIFT | KMOD_RSHIFT`. -/
def KMOD_SHIFT : Nat := KMOD_LSHIFT ||| KMOD_RSHIFT

/-- An `SDL_Event` as far as `processInput` looks at it: its type, and for a
key-down the key code `key.keysym.sym` and the modifier bits
`key.keysym.mod`. -/
inductive Event where
  | quit
  | keyDown (sym : Int) (mod : Nat)
  | other
  deriving DecidableEq, Repr

/-- The body of `case SDL_KEYDOWN:` in `processInput`. -/
def GridVisualizer.keyDown (s : GridVisualizer) (sym : Int) (mod : Nat) : GridVisualizer :=
  let s1 := if sym = SDLK_ESCAPE then { s with mIsRunning := false } else s
  let speed : Int := if mod &&& KMOD_SHIFT ≠ 0 then 10 else 1
  let s2 :=
    if sym = SDLK_LEFT then { s1 with mIndex := max 0 (s1.mIndex - speed) }
    else if sym = SDLK_RIGHT then
      { s1 with mIndex := min ((s1.history.length : Int) - 1) (s1.mIndex + speed) }
    else s1
  let s3 := if sym = SDLK_a then { s2 with mIndex := 0 } else s2
  if sym = SDLK_l then { s3 with mIndex := (s3.history.length : Int) - 1 } else s3

/-- One turn of the `switch (event.type)` in `processInput`. -/
def GridVisualizer.handleEvent (s : GridVisualizer) : Event → GridVisualizer
  | Event.quit => { s with mIsRunning := false }
  | Event.keyDown sym mod => s.keyDown sym mod
  | Event.other => s

/-- The member `processInput`: the `while (SDL_PollEvent(&event))` loop over
the pending events, oldest first. -/
def GridVisualizer.processInput (s : GridVisualizer) : List Event → GridVisualizer
  | [] => s
  | e :: es => (s.handleEvent e).processInput es

/-! ## Rendering -/

/-- The `SDL_Rect` of SDL2: top-left corner, width and height in pixels. -/
structure SDL_Rect where
  x : Int
  y : Int
  w : Int
  h : Int
  deriving DecidableEq, Repr

/-- The calls made on the SDL renderer, in the order `render` makes them.
`copyText text x y r g b` stands for the body of `renderText`: the text is
rasterised in colour `(r, g, b)` and copied with its top-left corner at
pixel `(x, y)` (the size of the pasted rectangle is that of the bitmap). -/
inductive DrawCmd where
  | setDrawColor (r g b a : Nat)
  | clear
  | fillRect (rect : SDL_Rect)
  | copyText (text : List Char) (x y : Int) (r g b : Nat)
  | present
  deriving DecidableEq, Repr

/-- The calls a drawing function has made, and whether it ran to its end
(`false`: it stopped at a read out of bounds, after the calls listed). -/
structure Rendering where
  calls : List DrawCmd
  completed : Bool
  deriving DecidableEq, Repr

/-- One drawing step after another: the second runs when the first ran to
its end. -/
def Rendering.seq (a b : Rendering) : Rendering :=
  if a.completed then ⟨a.calls ++ b.calls, b.completed⟩ else a

/-- The constant `FONT_SIZE`. -/
def FONT_SIZE : Int := 12

/-- A 32-bit two's-complement value: the `int` (or `Sint32`) that is
congruent to `z` modulo `2^32`. -/
def wrapInt32 (z : Int) : Int := (z + 2147483648) % 4294967296 - 2147483648

/-- The terminator of a C string. -/
def NUL : Char := Char.ofNat 0

/-- What a `const char*` obtained with `c_str()` denotes: the characters
before the first NUL. -/
def cStr (s : List Char) : List Char := s.takeWhile (fun c => c != NUL)

/-- The decimal text `operator<<` writes for an unsigned value. -/
def decimalNat (n : Nat) : List Char := Nat.toDigits 10 n

/-- The decimal text `operator<<` writes for an `int`. -/
def decimalInt (z : Int) : List Char :=
  if z < 0 then '-' :: decimalNat z.natAbs else decimalNat z.toNat

/-- The read `v[i]` of a `std::vector`: defined for `0 ≤ i < v.size()`. -/
def vecAt {α : Type} (v : List α) (i : Int) : Option α :=
  if i < 0 then none else v.get? i.toNat

/-- The read `s[j]` of a `std::string`: defined for `0 ≤ j ≤ s.size()`, the
position `s.size()` holding the terminating NUL. -/
def strAt (s : List Char) (j : Int) : Option Char :=
  if j < 0 then none
  else if j.toNat < s.length then s.get? j.toNat
  else if j.toNat = s.length then some NUL
  else none

/-- The member `renderText(text, x, y, r, g, b)`: the font library receives
`text.c_str()`. -/
def renderText (text : List Char) (x y : Int) (r g b : Nat) : List DrawCmd :=
  [DrawCmd.copyText (cStr text) x y r g b]

/-- The local `base_y` of `render`. -/
def base_y : Int := FONT_SIZE + 10
/-- The local `base_x` of `render`. -/
def base_x : Int := 1
/-- The local `cell_size` of `render`. -/
def cell_size : Int := FONT_SIZE + 2

/-- The rectangle `cell_back_outer` of `render` for row `i` and column `j`:
`{base_x + j * cell_size, base_y + i * cell_size, cell_size + 1,
cell_size + 1}`, every operation in 32-bit `int`. -/
def outerRect (i j : Int) : SDL_Rect :=
  ⟨wrapInt32 (base_x + wrapInt32 (j * cell_size)),
   wrapInt32 (base_y + wrapInt32 (i * cell_size)),
   wrapInt32 (cell_size + 1), wrapInt32 (cell_size + 1)⟩

/-- The rectangle `cell_back_inner` of `render` for row `i` and column `j`:
`{base_x + j * cell_size + 1, base_y + i * cell_size + 1, cell_size - 1,
cell_size - 1}`, every operation in 32-bit `int`. -/
def innerRect (i j : Int) : SDL_Rect :=
  ⟨wrapInt32 (wrapInt32 (base_x + wrapInt32 (j * cell_size)) + 1),
   wrapInt32 (wrapInt32 (base_y + wrapInt32 (i * cell_size)) + 1),
   wrapInt32 (cell_size - 1), wrapInt32 (cell_size - 1)⟩

/-- The position `render` hands to `renderText` for the character of row `i`
and column `j`: `(base_x + j * cell_size + 3, base_y + i * cell_size + 1)`,
every operation in 32-bit `int`. -/
def glyphAnchor (i j : Int) : Int × Int :=
  (wrapInt32 (wrapInt32 (base_x + wrapInt32 (j * cell_size)) + 3),
   wrapInt32 (wrapInt32 (base_y + wrapInt32 (i * cell_size)) + 1))

/-- The body of the inner loop of `render` for the cell in row `i` and
column `j` of the frame `g`: the outer box is drawn, then `field[i][j]` is
read, then the inner box and the character are drawn. -/
def renderCell (g : GridInfo) (i j : Int) : Rendering :=
  let outer : List DrawCmd :=
    [DrawCmd.setDrawColor 0 0 0 255, DrawCmd.fillRect (outerRect i j)]
  match (vecAt g.field i).bind (fun row => strAt row j) with
  | none => ⟨outer, false⟩
  | some ch =>
    let inner : List DrawCmd :=
      [if ch = '-' then DrawCmd.setDrawColor 255 255 255 255
       else DrawCmd.setDrawColor 230 230 250 255,
       DrawCmd.fillRect (innerRect i j)]
    let glyph : List DrawCmd :=
      if ch ≠ '-' then
        renderText (cStr [ch]) (glyphAnchor i j).1 (glyphAnchor i j).2 0 0 0
      else []
    ⟨outer ++ inner ++ glyph, true⟩

/-- The loop `for (int j = ...; j < W; j++)` of `render` with `n` turns
left, the next one for column `j`. -/
def renderCols (g : GridInfo) (i : Int) : Nat → Int → Rendering
  | 0, _ => ⟨[], true⟩
  | n + 1, j => (renderCell g i j).seq (renderCols g i n (j + 1))

/-- The loop `for (int i = ...; i < H; i++)` of `render` with `n` turns left,
the next one for row `i`. -/
def renderRows (g : GridInfo) : Nat → Int → Rendering
  | 0, _ => ⟨[], true⟩
  | n + 1, i => (renderCols g i g.W.toNat 0).seq (renderRows g n (i + 1))

/-- The text streamed into `ss` by `render`. -/
def statusText (index : Int) (size : Nat) (message : List Char) : List Char :=
  ['I', 'n', 'd', 'e', 'x', ' '] ++ decimalInt (index + 1) ++ [' ', '/', ' ']
    ++ decimalNat size ++ [':', ' '] ++ message

/-- The member `render`: the drawing calls of one frame.  The run stops
short, `completed = false`, at a read of the history or of the field that
is out of bounds. -/
def GridVisualizer.render (s : GridVisualizer) : Rendering :=
  let background : List DrawCmd := [DrawCmd.setDrawColor 240 248 255 255, DrawCmd.clear]
  if s.history.length = 0 then ⟨background ++ [DrawCmd.present], true⟩
  else
    match vecAt s.history s.mIndex with
    | none => ⟨background, false⟩
    | some cur =>
      let info := renderText (cStr (statusText s.mIndex s.history.length cur.message)) 2 2 0 0 0
      (Rendering.mk (background ++ info) true).seq
        ((renderRows cur cur.H.toNat 0).seq ⟨[DrawCmd.present], true⟩)

/-! ## The main loop -/

/-- The macro `SDL_TICKS_PASSED(A, B)` of SDL2, `((Sint32)((B) - (A)) <= 0)`:
`A` is a `Uint32` tick count, the difference is taken modulo `2^32`. -/
def SDL_TICKS_PASSED (a : Nat) (b : Int) : Bool :=
  decide (wrapInt32 (b - (a : Int)) ≤ 0)

/-- The loop `while (!SDL_TICKS_PASSED(SDL_GetTicks(), mTicksCount + 33));`
of `update`, `target` being `mTicksCount + 33`, on the successive values
returned by `SDL_GetTicks()`: the values not yet read once a value has
passed the target, `none` when none of the supplied values has. -/
def busyWait (target : Int) : List Nat → Option (List Nat)
  | [] => none
  | t :: rest => if SDL_TICKS_PASSED t target then some rest else busyWait target rest

/-- The member `update` on the successive values returned by
`SDL_GetTicks()`: the busy-wait, one reading for the elapsed time (computed
and not used), one reading stored in `mTicksCount`.  `none`: the supplied
values were used up before `update` had finished. -/
def GridVisualizer.update (s : GridVisualizer) (ticks : List Nat) : Option GridVisualizer :=
  match busyWait (wrapInt32 (s.mTicksCount + 33)) ticks with
  | none => none
  | some afterWait =>
    match afterWait with
    | _ :: now :: _ => some { s with mTicksCount := wrapInt32 now }
    | _ => none

/-- How a call of `run` ends on a finite supply of loop inputs. -/
inductive RunResult where
  | returned (s : GridVisualizer) (frames : List (List DrawCmd))
  | undefinedRead
  | starved
  deriving DecidableEq, Repr

/-- The member `run`.  Each turn of `while (mIsRunning)` takes the events
pending at its `processInput` and the values `SDL_GetTicks()` returns during
its `update`; the frames drawn are collected.  `starved` means the supplied
inputs were used up while the loop was still running or `update` still
waiting, `undefinedRead` that `render` read out of bounds. -/
def GridVisualizer.run : List (List Event × List Nat) → GridVisualizer → RunResult
  | [], s => if s.mIsRunning then RunResult.starved else RunResult.returned s []
  | (evs, ticks) :: rest, s =>
    if s.mIsRunning then
      match (s.processInput evs).update ticks with
      | none => RunResult.starved
      | some s1 =>
        if s1.render.completed then
          match GridVisualizer.run rest s1 with
          | RunResult.returned t frames => RunResult.returned t (s1.render.calls :: frames)
          | r => r
        else RunResult.undefinedRead
    else RunResult.returned s []

open GridVisualizer

/-! ## Helper definitions for the statements -/

/-- The viewer after construction and one `addGridInfo` per frame, in order. -/
def appendAll (frames : List GridInfo) : GridVisualizer :=
  frames.foldl addGridInfo fresh

/-- Successive calls of `processInput`, one per batch of pending events. -/
def processBatches (s : GridVisualizer) (batches : List (List Event)) : GridVisualizer :=
  batches.foldl processInput s

/-- The states the viewer reaches from construction by `addGridInfo` calls
and `processInput` batches in any order. -/
inductive Reachable : GridVisualizer → Prop where
  | fresh : Reachable GridVisualizer.fresh
  | add (s : GridVisualizer) (f : GridInfo) : Reachable s → Reachable (s.addGridInfo f)
  | input (s : GridVisualizer) (evs : List Event) :
      Reachable s → Reachable (s.processInput evs)

/-- A key-down of Right or of `l`: the two keys that set the cursor from
the history length. -/
def movesToLast : Event → Bool
  | Event.keyDown sym _ => decide (sym = SDLK_RIGHT) || decide (sym = SDLK_l)
  | _ => false

/-- The states reached from construction by `addGridInfo` calls and
`processInput` batches in any order, no Right or `l` key-down being handled
while the history is empty. -/
inductive ReachableNonEmptyNav : GridVisualizer → Prop where
  | fresh : ReachableNonEmptyNav GridVisualizer.fresh
  | add (s : GridVisualizer) (f : GridInfo) :
      ReachableNonEmptyNav s → ReachableNonEmptyNav (s.addGridInfo f)
  | input (s : GridVisualizer) (evs : List Event) :
      ReachableNonEmptyNav s → (s.history ≠ [] ∨ ∀ e ∈ evs, movesToLast e = false) →
      ReachableNonEmptyNav (s.processInput evs)

/-- The range the cursor stays in: `[0, N-1]` for `N ≥ 1` frames, `[-1, 0]`
for none. -/
def cursorInRange (s : GridVisualizer) : Prop :=
  min ((s.history.length : Int) - 1) 0 ≤ s.mIndex
    ∧ s.mIndex ≤ max ((s.history.length : Int) - 1) 0

/-- The value fits a 32-bit C++ `int`. -/
def fitsInt (z : Int) : Prop := -2147483648 ≤ z ∧ z ≤ 2147483647

/-- The cursor is a valid index, or 0 on an empty history. -/
def cursorValid (s : GridVisualizer) : Prop :=
  0 ≤ s.mIndex ∧ s.mIndex ≤ max ((s.history.length : Int) - 1) 0

/-- The pixels of a rectangle: `x ≤ px < x + w` and `y ≤ py < y + h`. -/
def SDL_Rect.contains (r : SDL_Rect) (px py : Int) : Prop :=
  r.x ≤ px ∧ px < r.x + r.w ∧ r.y ≤ py ∧ py < r.y + r.h

/-- Every pixel of `a` is a pixel of `b`. -/
def SDL_Rect.inside (a b : SDL_Rect) : Prop :=
  ∀ px py : Int, a.contains px py → b.contains px py

/-- No pixel belongs to both rectangles. -/
def SDL_Rect.disjointFrom (a b : SDL_Rect) : Prop :=
  ∀ px py : Int, ¬ (a.contains px py ∧ b.contains px py)

/-- The outer rectangle of the cell in row `i`, column `j`, as the
specification gives it: `x = 1 + 14 j`, `y = 22 + 14 i`, 15 by 15. -/
def cellOuter (i j : Int) : SDL_Rect := ⟨1 + 14 * j, 22 + 14 * i, 15, 15⟩

/-- The inner rectangle of the cell as the specification gives it: the
outer one moved by `(1, 1)`, 13 by 13. -/
def cellInner (i j : Int) : SDL_Rect :=
  ⟨(cellOuter i j).x + 1, (cellOuter i j).y + 1, 13, 13⟩

/-- The last row whose pixel coordinates `22 + 14 i + 1` fit an `int`. -/
def lastRow : Int := 153391687

/-- The last column whose pixel coordinates `1 + 14 j + 3` fit an `int`. -/
def lastCol : Int := 153391688

/-- The drawing calls of one cell holding the character `ch`, as the
specification gives them: border colour and outer rectangle, fill colour
(white for `-`, lavender otherwise) and inner rectangle, and for a character
other than `-` its glyph; `glyph` is the text handed to the font library for
`ch`, the rectangles and the glyph position are those `render` computes. -/
def cellCmds (glyph : Char → List Char) (ch : Char) (i j : Int) : List DrawCmd :=
  [DrawCmd.setDrawColor 0 0 0 255, DrawCmd.fillRect (outerRect i j),
   if ch = '-' then DrawCmd.setDrawColor 255 255 255 255
   else DrawCmd.setDrawColor 230 230 250 255,
   DrawCmd.fillRect (innerRect i j)]
  ++ (if ch = '-' then []
      else [DrawCmd.copyText (glyph ch) (glyphAnchor i j).1 (glyphAnchor i j).2 0 0 0])

/-- The glyph text of the claim: the one-character string. -/
def glyphAsClaimed (ch : Char) : List Char := [ch]

/-- The glyph text the code produces: the one-character string, cut at NUL. -/
def glyphAsDrawn (ch : Char) : List Char := if ch = NUL then [] else [ch]

/-- The character `f.field[i][j]` (a blank outside the field). -/
def charAt (f : GridInfo) (i j : Nat) : Char := (f.field.getD i []).getD j ' '

/-- A frame is well formed: `field` has `H` rows of exactly `W` characters. -/
def wellFormed (f : GridInfo) : Prop :=
  (f.field.length : Int) = f.H ∧ ∀ row ∈ f.field, (row.length : Int) = f.W

/-- The cells of a frame in row-major order, each with its drawing calls. -/
def gridCells (glyph : Char → List Char) (f : GridInfo) : List (List DrawCmd) :=
  (List.product (List.range f.H.toNat) (List.range f.W.toNat)).map
    (fun p => cellCmds glyph (charAt f p.1 p.2) p.1 p.2)

/-- The status line of the claim for cursor `c`, length `n` and a message. -/
def statusAsClaimed (c : Int) (n : Nat) (message : List Char) : List Char :=
  ['I', 'n', 'd', 'e', 'x', ' '] ++ decimalInt (c + 1) ++ [' ', '/', ' ']
    ++ decimalNat n ++ [':', ' '] ++ message

/-- The drawing call is a text of at most one character, or no text. -/
def glyphOrShape : DrawCmd → Prop
  | DrawCmd.copyText text _ _ _ _ _ => text.length ≤ 1
  | _ => True

/-! ## Lemmas on input handling -/

theorem shift_mask_iff (m : Nat) :
    m &&& KMOD_SHIFT ≠ 0 ↔ (m &&& KMOD_LSHIFT ≠ 0 ∨ m &&& KMOD_RSHIFT ≠ 0) := by
  have h3 : m &&& 3 = m % 4 := by
    have := Nat.and_pow_two_sub_one_eq_mod m 2
    simpa using this
  have h1 : m &&& 1 = m % 2 := Nat.and_one_is_mod m
  have h2 : m &&& 2 = (m.testBit 1).toNat * 2 := by
    have := Nat.and_two_pow m 1
    simpa using this
  have hb : m.testBit 1 = decide (m / 2 % 2 = 1) := by
    have := @Nat.testBit_to_div_mod 1 m
    simpa using this
  have hS : KMOD_SHIFT = 3 := by decide
  rw [hS, h3]
  show m % 4 ≠ 0 ↔ (m &&& 1 ≠ 0 ∨ m &&& 2 ≠ 0)
  rw [h1, h2, hb]
  by_cases h : m / 2 % 2 = 1
  · simp [h]; omega
  · simp [h]; omega

theorem keyDown_history (s : GridVisualizer) (sym : Int) (mod : Nat) :
    (s.keyDown sym mod).history = s.history := by
  unfold GridVisualizer.keyDown
  split_ifs <;> rfl

theorem handleEvent_history (s : GridVisualizer) (e : Event) :
    (s.handleEvent e).history = s.history := by
  cases e with
  | quit => rfl
  | keyDown sym mod => exact keyDown_history s sym mod
  | other => rfl

theorem processInput_history (evs : List Event) (s : GridVisualizer) :
    (s.processInput evs).history = s.history := by
  induction evs generalizing s with
  | nil => rfl
  | cons e es ih =>
    show ((s.handleEvent e).processInput es).history = s.history
    rw [ih, handleEvent_history]

theorem processInput_append (a b : List Event) (s : GridVisualizer) :
    s.processInput (a ++ b) = (s.processInput a).processInput b := by
  induction a generalizing s with
  | nil => rfl
  | cons e es ih => exact ih (s.handleEvent e)

theorem processBatches_history (batches : List (List Event)) (s : GridVisualizer) :
    (processBatches s batches).history = s.history := by
  induction batches generalizing s with
  | nil => rfl
  | cons b bs ih =>
    show (processBatches (s.processInput b) bs).history = s.history
    rw [ih, processInput_history]

theorem appendAll_from (frames : List GridInfo) (s : GridVisualizer) :
    (frames.foldl addGridInfo s).history = s.history ++ frames
      ∧ (frames.foldl addGridInfo s).mIndex = s.mIndex
      ∧ (frames.foldl addGridInfo s).mIsRunning = s.mIsRunning := by
  induction frames generalizing s with
  | nil => simp
  | cons f fs ih =>
    obtain ⟨h1, h2, h3⟩ := ih (s.addGridInfo f)
    refine ⟨?_, ?_, ?_⟩
    · simpa [GridVisualizer.addGridInfo] using h1
    · simpa [GridVisualizer.addGridInfo] using h2
    · simpa [GridVisualizer.addGridInfo] using h3

theorem appendAll_history (frames : List GridInfo) : (appendAll frames).history = frames := by
  simpa [appendAll, GridVisualizer.fresh] using (appendAll_from frames fresh).1

theorem appendAll_mIndex (frames : List GridInfo) : (appendAll frames).mIndex = 0 := by
  simpa [appendAll, GridVisualizer.fresh] using (appendAll_from frames fresh).2.1

theorem keyDown_cursorInRange (s : GridVisualizer) (sym : Int) (mod : Nat)
    (h : cursorInRange s) : cursorInRange (s.keyDown sym mod) := by
  unfold cursorInRange at *
  rw [keyDown_history]
  obtain ⟨h1, h2⟩ := h
  unfold GridVisualizer.keyDown
  split_ifs <;> simp only [] <;> omega

theorem handleEvent_cursorInRange (s : GridVisualizer) (e : Event)
    (h : cursorInRange s) : cursorInRange (s.handleEvent e) := by
  cases e with
  | quit => exact h
  | keyDown sym mod => exact keyDown_cursorInRange s sym mod h
  | other => exact h

theorem processInput_cursorInRange (evs : List Event) (s : GridVisualizer)
    (h : cursorInRange s) : cursorInRange (s.processInput evs) := by
  induction evs generalizing s with
  | nil => exact h
  | cons e es ih => exact ih _ (handleEvent_cursorInRange s e h)

theorem processBatches_cursorInRange (batches : List (List Event)) (s : GridVisualizer)
    (h : cursorInRange s) : cursorInRange (processBatches s batches) := by
  induction batches generalizing s with
  | nil => exact h
  | cons b bs ih => exact ih _ (processInput_cursorInRange b s h)

theorem keyDown_arithmetic_fits (s : GridVisualizer)
    (hN : (s.history.length : Int) + 10 ≤ 2147483647) (h : cursorInRange s) :
    fitsInt ((s.history.length : Int) - 1)
      ∧ fitsInt (s.mIndex - 1) ∧ fitsInt (s.mIndex - 10)
      ∧ fitsInt (s.mIndex + 1) ∧ fitsInt (s.mIndex + 10) := by
  unfold cursorInRange at h
  unfold fitsInt
  omega

/-! ## C1 -/

/-- C1, counterexample: with no frame appended, one Right key-down leaves
the cursor at -1, outside `[0, max(N-1, 0)] = [0, 0]`. -/
theorem C1_counterexample :
    (processBatches (appendAll []) [[Event.keyDown SDLK_RIGHT 0]]).mIndex = -1
      ∧ ¬ (0 ≤ (processBatches (appendAll []) [[Event.keyDown SDLK_RIGHT 0]]).mIndex
            ∧ (processBatches (appendAll []) [[Event.keyDown SDLK_RIGHT 0]]).mIndex
                ≤ max (((([] : List GridInfo).length : Nat) : Int) - 1) 0) := by
  decide

/-- C1, amended: for every list of `N` frames appended to a fresh viewer and
every sequence of event batches handled by `processInput` (navigation keys
or any other event), the cursor afterwards lies in
`[min(N-1, 0), max(N-1, 0)]`: in `[0, N-1]` for `N ≥ 1`, in `[-1, 0]` for
`N = 0`. -/
theorem C1_cursor_range (frames : List GridInfo) (batches : List (List Event)) :
    min ((frames.length : Int) - 1) 0 ≤ (processBatches (appendAll frames) batches).mIndex
      ∧ (processBatches (appendAll frames) batches).mIndex
          ≤ max ((frames.length : Int) - 1) 0 := by
  have h0 : cursorInRange (appendAll frames) := by
    unfold cursorInRange
    rw [appendAll_mIndex]
    omega
  have h := processBatches_cursorInRange batches _ h0
  unfold cursorInRange at h
  rw [processBatches_history, appendAll_history] at h
  exact h

/-! ## C2 -/

/-- C2: with `N ≥ 1` frames and the cursor `c` in `[0, N-1]`, one Left
key-down sets the cursor to `max(0, c - s)` and one Right key-down to
`min(N-1, c + s)`, nothing else changing, where `s` is 10 when the left or
the right Shift bit of the modifier is set and 1 otherwise; both results lie
in `[0, N-1]`. -/
theorem C2_arrow_keys (s : GridVisualizer) (mod : Nat)
    (hN : 1 ≤ s.history.length) (hlo : 0 ≤ s.mIndex)
    (hhi : s.mIndex ≤ (s.history.length : Int) - 1) :
    s.processInput [Event.keyDown SDLK_LEFT mod]
        = { s with mIndex := max 0 (s.mIndex -
              (if mod &&& KMOD_LSHIFT ≠ 0 ∨ mod &&& KMOD_RSHIFT ≠ 0 then 10 else 1)) }
      ∧ s.processInput [Event.keyDown SDLK_RIGHT mod]
        = { s with mIndex := min ((s.history.length : Int) - 1) (s.mIndex +
              (if mod &&& KMOD_LSHIFT ≠ 0 ∨ mod &&& KMOD_RSHIFT ≠ 0 then 10 else 1)) }
      ∧ 0 ≤ (s.processInput [Event.keyDown SDLK_LEFT mod]).mIndex
      ∧ (s.processInput [Event.keyDown SDLK_LEFT mod]).mIndex ≤ (s.history.length : Int) - 1
      ∧ 0 ≤ (s.processInput [Event.keyDown SDLK_RIGHT mod]).mIndex
      ∧ (s.processInput [Event.keyDown SDLK_RIGHT mod]).mIndex
          ≤ (s.history.length : Int) - 1 := by
  have hL : s.processInput [Event.keyDown SDLK_LEFT mod]
        = { s with mIndex := max 0 (s.mIndex -
              (if mod &&& KMOD_LSHIFT ≠ 0 ∨ mod &&& KMOD_RSHIFT ≠ 0 then 10 else 1)) } := by
    show s.keyDown SDLK_LEFT mod = _
    unfold GridVisualizer.keyDown
    by_cases hm : mod &&& KMOD_SHIFT ≠ 0
    · have hm2 := (shift_mask_iff mod).1 hm
      simp [hm, hm2, SDLK_LEFT, SDLK_ESCAPE, SDLK_a, SDLK_l]
    · have hm2 : ¬ (mod &&& KMOD_LSHIFT ≠ 0 ∨ mod &&& KMOD_RSHIFT ≠ 0) :=
        fun h => hm ((shift_mask_iff mod).2 h)
      simp [hm, hm2, SDLK_LEFT, SDLK_ESCAPE, SDLK_a, SDLK_l]
  have hR : s.processInput [Event.keyDown SDLK_RIGHT mod]
        = { s with mIndex := min ((s.history.length : Int) - 1) (s.mIndex +
              (if mod &&& KMOD_LSHIFT ≠ 0 ∨ mod &&& KMOD_RSHIFT ≠ 0 then 10 else 1)) } := by
    show s.keyDown SDLK_RIGHT mod = _
    unfold GridVisualizer.keyDown
    by_cases hm : mod &&& KMOD_SHIFT ≠ 0
    · have hm2 := (shift_mask_iff mod).1 hm
      simp [hm, hm2, SDLK_LEFT, SDLK_RIGHT, SDLK_ESCAPE, SDLK_a, SDLK_l]
    · have hm2 : ¬ (mod &&& KMOD_LSHIFT ≠ 0 ∨ mod &&& KMOD_RSHIFT ≠ 0) :=
        fun h => hm ((shift_mask_iff mod).2 h)
      simp [hm, hm2, SDLK_LEFT, SDLK_RIGHT, SDLK_ESCAPE, SDLK_a, SDLK_l]
  refine ⟨hL, hR, ?_, ?_, ?_, ?_⟩
  · rw [hL]; simp only []; omega
  · rw [hL]; simp only []; split_ifs <;> omega
  · rw [hR]; simp only []; split_ifs <;> omega
  · rw [hR]; simp only []; omega

/-- C2, witness: three frames, cursor 1, Shift held. -/
theorem C2_arrow_keys_witness :
    ((⟨true, 0, [GridInfo.empty, GridInfo.empty, GridInfo.empty], 1⟩ : GridVisualizer).processInput
        [Event.keyDown SDLK_LEFT KMOD_LSHIFT]).mIndex = 0
      ∧ ((⟨true, 0, [GridInfo.empty, GridInfo.empty, GridInfo.empty], 1⟩ : GridVisualizer).processInput
        [Event.keyDown SDLK_RIGHT KMOD_LSHIFT]).mIndex = 2 := by
  have h := C2_arrow_keys ⟨true, 0, [GridInfo.empty, GridInfo.empty, GridInfo.empty], 1⟩
    KMOD_LSHIFT (by decide) (by decide) (by decide)
  refine ⟨?_, ?_⟩
  · rw [h.1]; decide
  · rw [h.2.1]; decide

/-! ## C3 -/

/-- C3: whatever the history length `N`, the prior cursor and the modifier
bits, a key-down of `a` sets the cursor to 0 (in particular when `N > 0`)
and a key-down of `l` sets it to `N - 1`; nothing else changes. -/
theorem C3_first_last_keys (s : GridVisualizer) (mod : Nat) :
    s.processInput [Event.keyDown SDLK_a mod] = { s with mIndex := 0 }
      ∧ s.processInput [Event.keyDown SDLK_l mod]
          = { s with mIndex := (s.history.length : Int) - 1 } := by
  constructor
  · show s.keyDown SDLK_a mod = _
    unfold GridVisualizer.keyDown
    simp [SDLK_LEFT, SDLK_RIGHT, SDLK_ESCAPE, SDLK_a, SDLK_l]
  · show s.keyDown SDLK_l mod = _
    unfold GridVisualizer.keyDown
    simp [SDLK_LEFT, SDLK_RIGHT, SDLK_ESCAPE, SDLK_a, SDLK_l]

/-! ## C4 -/

theorem keyDown_cursorValid (s : GridVisualizer) (sym : Int) (mod : Nat)
    (h : cursorValid s)
    (hg : s.history ≠ [] ∨ movesToLast (Event.keyDown sym mod) = false) :
    cursorValid (s.keyDown sym mod) := by
  unfold cursorValid at *
  rw [keyDown_history]
  obtain ⟨h1, h2⟩ := h
  have hlen : 1 ≤ s.history.length ∨ (sym ≠ SDLK_RIGHT ∧ sym ≠ SDLK_l) := by
    rcases hg with hg | hg
    · left
      cases hh : s.history with
      | nil => exact absurd hh hg
      | cons a l => simp
    · right
      simpa [movesToLast] using hg
  unfold GridVisualizer.keyDown
  rcases hlen with hlen | ⟨hr, hl⟩
  · split_ifs <;> simp only [] <;> omega
  · simp only [hr, hl, if_false]
    split_ifs <;> (try simp only []) <;> omega

theorem processInput_cursorValid (evs : List Event) (s : GridVisualizer)
    (h : cursorValid s)
    (hg : s.history ≠ [] ∨ ∀ e ∈ evs, movesToLast e = false) :
    cursorValid (s.processInput evs) := by
  induction evs generalizing s with
  | nil => exact h
  | cons e es ih =>
    have hg1 : s.history ≠ [] ∨ movesToLast e = false := by
      rcases hg with hg | hg
      · exact Or.inl hg
      · exact Or.inr (hg e (List.mem_cons_self e es))
    have hg2 : (s.handleEvent e).history ≠ [] ∨ ∀ x ∈ es, movesToLast x = false := by
      rw [handleEvent_history]
      rcases hg with hg | hg
      · exact Or.inl hg
      · exact Or.inr (fun x hx => hg x (List.mem_cons_of_mem e hx))
    refine ih (s.handleEvent e) ?_ hg2
    cases e with
    | quit => exact h
    | keyDown sym mod => exact keyDown_cursorValid s sym mod h hg1
    | other => exact h

theorem reachableNonEmptyNav_cursorValid (s : GridVisualizer)
    (h : ReachableNonEmptyNav s) : cursorValid s := by
  induction h with
  | fresh => unfold cursorValid; decide
  | add s f _ ih =>
    unfold cursorValid at *
    simp only [GridVisualizer.addGridInfo, List.length_append, List.length_singleton]
    push_cast
    omega
  | input s evs _ hg ih => exact processInput_cursorValid evs s ih hg

theorem vecAt_isSome {α : Type} (v : List α) (i : Int) (h0 : 0 ≤ i)
    (h1 : i ≤ (v.length : Int) - 1) : ∃ a, vecAt v i = some a := by
  unfold vecAt
  have hlt : i.toNat < v.length := by omega
  refine ⟨v.get ⟨i.toNat, hlt⟩, ?_⟩
  rw [if_neg (by omega)]
  exact List.get?_eq_get hlt

/-- C4, counterexample: the `l` key handled on the empty history, then one
frame appended.  The state is reachable, its history is not empty, its
cursor is -1 and `render` reads `history[-1]`. -/
theorem C4_counterexample :
    Reachable ((fresh.processInput [Event.keyDown SDLK_l 0]).addGridInfo (GridInfo.sized 1 1))
      ∧ ((fresh.processInput [Event.keyDown SDLK_l 0]).addGridInfo (GridInfo.sized 1 1)).history
          ≠ []
      ∧ ((fresh.processInput [Event.keyDown SDLK_l 0]).addGridInfo (GridInfo.sized 1 1)).mIndex
          = -1
      ∧ ((fresh.processInput [Event.keyDown SDLK_l 0]).addGridInfo (GridInfo.sized 1 1)).render
          = ⟨[DrawCmd.setDrawColor 240 248 255 255, DrawCmd.clear], false⟩ :=
  ⟨Reachable.add _ _ (Reachable.input _ _ Reachable.fresh), by decide, by decide, by decide⟩

/-- C4, amended: in every state reached from a fresh viewer by `addGridInfo`
calls and `processInput` batches in any order, provided no Right or `l`
key-down is handled while the history is empty, a non-empty history of
length `N` has `0 ≤ mIndex ≤ N - 1`, and the read `history[mIndex]` of
`render` is in bounds. -/
theorem C4_cursor_in_bounds (s : GridVisualizer) (hr : ReachableNonEmptyNav s)
    (hne : s.history ≠ []) :
    0 ≤ s.mIndex ∧ s.mIndex ≤ (s.history.length : Int) - 1
      ∧ ∃ f, vecAt s.history s.mIndex = some f := by
  obtain ⟨h0, h1⟩ := reachableNonEmptyNav_cursorValid s hr
  have hlen : 1 ≤ s.history.length := by
    cases hh : s.history with
    | nil => exact absurd hh hne
    | cons a l => simp
  have h2 : s.mIndex ≤ (s.history.length : Int) - 1 := by omega
  exact ⟨h0, h2, vecAt_isSome _ _ h0 h2⟩

/-- C4, witness: Left on the empty history, one frame appended, then Right. -/
theorem C4_cursor_in_bounds_witness :
    0 ≤ (((fresh.processInput [Event.keyDown SDLK_LEFT 0]).addGridInfo
            (GridInfo.sized 1 1)).processInput [Event.keyDown SDLK_RIGHT 0]).mIndex
      ∧ (((fresh.processInput [Event.keyDown SDLK_LEFT 0]).addGridInfo
            (GridInfo.sized 1 1)).processInput [Event.keyDown SDLK_RIGHT 0]).mIndex ≤ 0 := by
  have h := C4_cursor_in_bounds
    (((fresh.processInput [Event.keyDown SDLK_LEFT 0]).addGridInfo
        (GridInfo.sized 1 1)).processInput [Event.keyDown SDLK_RIGHT 0])
    (ReachableNonEmptyNav.input _ _
      (ReachableNonEmptyNav.add _ _
        (ReachableNonEmptyNav.input _ _ ReachableNonEmptyNav.fresh
          (Or.inr (by decide))))
      (Or.inl (by decide)))
    (by decide)
  exact ⟨h.1, h.2.1⟩

/-! ## C5 -/

theorem keyDown_mIsRunning (s : GridVisualizer) (sym : Int) (mod : Nat) :
    (s.keyDown sym mod).mIsRunning = (if sym = SDLK_ESCAPE then false else s.mIsRunning) := by
  unfold GridVisualizer.keyDown
  split_ifs <;> rfl

theorem handleEvent_stays_stopped (s : GridVisualizer) (e : Event)
    (h : s.mIsRunning = false) : (s.handleEvent e).mIsRunning = false := by
  cases e with
  | quit => rfl
  | keyDown sym mod =>
    show (s.keyDown sym mod).mIsRunning = false
    rw [keyDown_mIsRunning]
    split_ifs
    · rfl
    · exact h
  | other => exact h

theorem processInput_stays_stopped (evs : List Event) (s : GridVisualizer)
    (h : s.mIsRunning = false) : (s.processInput evs).mIsRunning = false := by
  induction evs generalizing s with
  | nil => exact h
  | cons e es ih => exact ih _ (handleEvent_stays_stopped s e h)

theorem processInput_stops (evs : List Event) (s : GridVisualizer)
    (hq : Event.quit ∈ evs ∨ ∃ mod, Event.keyDown SDLK_ESCAPE mod ∈ evs) :
    (s.processInput evs).mIsRunning = false := by
  induction evs generalizing s with
  | nil =>
    rcases hq with hq | ⟨mod, hq⟩
    · exact absurd hq (List.not_mem_nil _)
    · exact absurd hq (List.not_mem_nil _)
  | cons e es ih =>
    show ((s.handleEvent e).processInput es).mIsRunning = false
    by_cases he : e = Event.quit ∨ ∃ mod, e = Event.keyDown SDLK_ESCAPE mod
    · apply processInput_stays_stopped
      rcases he with he | ⟨mod, he⟩
      · subst he; rfl
      · subst he
        show (s.keyDown SDLK_ESCAPE mod).mIsRunning = false
        rw [keyDown_mIsRunning]
        simp
    · apply ih
      rcases hq with hq | ⟨mod, hq⟩
      · left
        rcases List.mem_cons.1 hq with h1 | h1
        · exact absurd (Or.inl h1.symm) he
        · exact h1
      · right
        rcases List.mem_cons.1 hq with h1 | h1
        · exact absurd (Or.inr ⟨mod, h1.symm⟩) he
        · exact ⟨mod, h1⟩

theorem keyDown_mTicksCount (s : GridVisualizer) (sym : Int) (mod : Nat) :
    (s.keyDown sym mod).mTicksCount = s.mTicksCount := by
  unfold GridVisualizer.keyDown
  split_ifs <;> rfl

theorem processInput_mTicksCount (evs : List Event) (s : GridVisualizer) :
    (s.processInput evs).mTicksCount = s.mTicksCount := by
  induction evs generalizing s with
  | nil => rfl
  | cons e es ih =>
    show ((s.handleEvent e).processInput es).mTicksCount = s.mTicksCount
    rw [ih]
    cases e with
    | quit => rfl
    | keyDown sym mod => exact keyDown_mTicksCount s sym mod
    | other => rfl

theorem busyWait_passes (target : Int) (waiting : List Nat) (t : Nat) (rest : List Nat)
    (hwait : ∀ w ∈ waiting, SDL_TICKS_PASSED w target = false)
    (hpass : SDL_TICKS_PASSED t target = true) :
    busyWait target (waiting ++ t :: rest) = some rest := by
  induction waiting with
  | nil => simp [busyWait, hpass]
  | cons w ws ih =>
    have hw := hwait w (List.mem_cons_self w ws)
    have hws := ih (fun x hx => hwait x (List.mem_cons_of_mem w hx))
    simp [busyWait, hw, hws]

theorem busyWait_spins (target : Int) (ticks : List Nat)
    (hwait : ∀ w ∈ ticks, SDL_TICKS_PASSED w target = false) :
    busyWait target ticks = none := by
  induction ticks with
  | nil => rfl
  | cons w ws ih =>
    have hw := hwait w (List.mem_cons_self w ws)
    have hws := ih (fun x hx => hwait x (List.mem_cons_of_mem w hx))
    simp [busyWait, hw, hws]

theorem update_returns (s : GridVisualizer) (waiting : List Nat) (t elapsed now : Nat)
    (later : List Nat)
    (hwait : ∀ w ∈ waiting, SDL_TICKS_PASSED w (wrapInt32 (s.mTicksCount + 33)) = false)
    (hpass : SDL_TICKS_PASSED t (wrapInt32 (s.mTicksCount + 33)) = true) :
    s.update (waiting ++ t :: elapsed :: now :: later)
      = some { s with mTicksCount := wrapInt32 now } := by
  unfold GridVisualizer.update
  rw [busyWait_passes _ waiting t _ hwait hpass]

theorem update_keeps (s t : GridVisualizer) (ticks : List Nat) (h : s.update ticks = some t) :
    t.mIsRunning = s.mIsRunning ∧ t.history = s.history ∧ t.mIndex = s.mIndex := by
  unfold GridVisualizer.update at h
  split at h
  · cases h
  · split at h
    · injection h with h
      subst h
      exact ⟨rfl, rfl, rfl⟩
    · cases h

theorem run_stopped (s : GridVisualizer) (inputs : List (List Event × List Nat))
    (h : s.mIsRunning = false) : s.run inputs = RunResult.returned s [] := by
  cases inputs with
  | nil => simp [GridVisualizer.run, h]
  | cons a l => obtain ⟨evs, ticks⟩ := a; simp [GridVisualizer.run, h]

/-- C5, counterexample: (1) a history whose only frame announces one row
and one column but has an empty field, the batch `[quit]`, and a tick
counter that passes the next tick at once: the flag drops, but the `render`
call that ends the turn reads `field[0]` out of bounds, so `run` is not a
call that returns, whatever inputs follow; (2) a well-formed 1x1 frame, the
batch `[quit]` and a tick counter that stays at 0: the flag drops, but
`update` is still in its busy-wait after any number of readings, so `run`
has not returned. -/
theorem C5_counterexample :
    ((appendAll [⟨1, 1, [], []⟩]).processInput [Event.quit]).mIsRunning = false
      ∧ (appendAll [⟨1, 1, [], []⟩]).mIsRunning = true
      ∧ (∀ (rest : List (List Event × List Nat)),
          (appendAll [⟨1, 1, [], []⟩]).run (([Event.quit], [33, 34, 35]) :: rest)
            = RunResult.undefinedRead)
      ∧ ((appendAll [GridInfo.sized 1 1]).processInput [Event.quit]).mIsRunning = false
      ∧ (appendAll [GridInfo.sized 1 1]).mIsRunning = true
      ∧ (∀ (n : Nat) (rest : List (List Event × List Nat)),
          (appendAll [GridInfo.sized 1 1]).run (([Event.quit], List.replicate n 0) :: rest)
            = RunResult.starved) := by
  refine ⟨by decide, by decide, fun _ => rfl, by decide, by decide, ?_⟩
  intro n rest
  have hspin : busyWait 33 (List.replicate n 0) = none := by
    apply busyWait_spins
    intro w hw
    rw [List.eq_of_mem_replicate hw]
    decide
  have hupd : ((appendAll [GridInfo.sized 1 1]).processInput [Event.quit]).update
      (List.replicate n 0) = none := by
    unfold GridVisualizer.update
    have htarget : wrapInt32 (((appendAll [GridInfo.sized 1 1]).processInput
        [Event.quit]).mTicksCount + 33) = 33 := by decide
    rw [htarget, hspin]
  have hrun : (appendAll [GridInfo.sized 1 1]).mIsRunning = true := by decide
  simp only [GridVisualizer.run, hrun, if_true, hupd]

/-- C5, amended: whatever the starting state, once `processInput` has
drained a batch holding a quit event or an Escape key-down the flag
`mIsRunning` is false; neither `processInput` nor `update` sets a false flag
back to true; and `run`, started in a running state on such a batch, makes
this one turn and no other and returns, provided the tick counter read by
`update` passes `mTicksCount + 33` (so that the busy-wait of the turn ends)
and the `render` call of the turn reads in bounds (started in a stopped
state `run` returns at once). -/
theorem C5_quit_stops_run (s : GridVisualizer) (batch : List Event)
    (hq : Event.quit ∈ batch ∨ ∃ mod, Event.keyDown SDLK_ESCAPE mod ∈ batch) :
    (s.processInput batch).mIsRunning = false
      ∧ (∀ (t : GridVisualizer) (evs : List Event), t.mIsRunning = false →
            (t.processInput evs).mIsRunning = false)
      ∧ (∀ (t u : GridVisualizer) (ticks : List Nat), t.update ticks = some u →
            u.mIsRunning = t.mIsRunning)
      ∧ (∀ (waiting : List Nat) (t elapsed now : Nat) (later : List Nat)
            (rest : List (List Event × List Nat)),
            s.mIsRunning = true →
            (∀ w ∈ waiting, SDL_TICKS_PASSED w (wrapInt32 (s.mTicksCount + 33)) = false) →
            SDL_TICKS_PASSED t (wrapInt32 (s.mTicksCount + 33)) = true →
            ({ s.processInput batch with mTicksCount := wrapInt32 now } : GridVisualizer).render.completed
              = true →
            s.run ((batch, waiting ++ t :: elapsed :: now :: later) :: rest)
              = RunResult.returned
                  { s.processInput batch with mTicksCount := wrapInt32 now }
                  [({ s.processInput batch with mTicksCount := wrapInt32 now } :
                      GridVisualizer).render.calls])
      ∧ (∀ (inputs : List (List Event × List Nat)), s.mIsRunning = false →
            s.run inputs = RunResult.returned s []) := by
  have hstop := processInput_stops batch s hq
  refine ⟨hstop, fun t evs h => processInput_stays_stopped evs t h,
    fun t u ticks h => (update_keeps t u ticks h).1, ?_, fun inputs h => run_stopped s inputs h⟩
  intro waiting t elapsed now later rest hrun hwait hpass hrender
  have hupd := update_returns (s.processInput batch) waiting t elapsed now later
    (by rw [processInput_mTicksCount]; exact hwait)
    (by rw [processInput_mTicksCount]; exact hpass)
  have hoff : ({ s.processInput batch with mTicksCount := wrapInt32 now } :
      GridVisualizer).mIsRunning = false := hstop
  simp only [GridVisualizer.run, hrun, if_true, hupd, hrender, run_stopped _ rest hoff]

/-- C5, witness: one 1x1 frame; the batch holds `a`, Escape and Right; the
tick counter reads 10 and 20 before it passes 33, at 40. -/
theorem C5_quit_stops_run_witness :
    (appendAll [GridInfo.sized 1 1]).run
        [([Event.keyDown SDLK_a 0, Event.keyDown SDLK_ESCAPE 0, Event.keyDown SDLK_RIGHT 0],
            [10, 20] ++ 40 :: 41 :: 42 :: [43]),
         ([Event.other], [80, 81, 82])]
      = RunResult.returned ⟨false, 42, [GridInfo.sized 1 1], 0⟩
          [[DrawCmd.setDrawColor 240 248 255 255, DrawCmd.clear,
            DrawCmd.copyText ['I', 'n', 'd', 'e', 'x', ' ', '1', ' ', '/', ' ', '1', ':', ' ']
              2 2 0 0 0,
            DrawCmd.setDrawColor 0 0 0 255, DrawCmd.fillRect ⟨1, 22, 15, 15⟩,
            DrawCmd.setDrawColor 230 230 250 255, DrawCmd.fillRect ⟨2, 23, 13, 13⟩,
            DrawCmd.copyText [' '] 4 23 0 0 0,
            DrawCmd.present]] := by
  have h := (C5_quit_stops_run (appendAll [GridInfo.sized 1 1])
    [Event.keyDown SDLK_a 0, Event.keyDown SDLK_ESCAPE 0, Event.keyDown SDLK_RIGHT 0]
    (Or.inr ⟨0, by decide⟩)).2.2.2.1 [10, 20] 40 41 42 [43] [([Event.other], [80, 81, 82])]
    (by decide) (by decide) (by decide) (by decide)
  rw [h]
  decide

/-! ## C7 -/

/-- C7: on an empty history, whatever the cursor, `render` makes exactly
three calls: the draw colour set to (240, 248, 255), the clear, the present.
It draws no text and no rectangle, and it runs to its end without reading
the history. -/
theorem C7_render_empty_history (running : Bool) (ticks cursor : Int) :
    (⟨running, ticks, [], cursor⟩ : GridVisualizer).render
      = ⟨[DrawCmd.setDrawColor 240 248 255 255, DrawCmd.clear, DrawCmd.present], true⟩ :=
  rfl

/-! ## C8 -/

theorem right_presses (k : Nat) (s : GridVisualizer) (mod : Nat)
    (hmod : mod &&& KMOD_SHIFT = 0) (hN : 1 ≤ s.history.length) (hlo : 0 ≤ s.mIndex)
    (hhi : s.mIndex ≤ (s.history.length : Int) - 1) :
    s.processInput (List.replicate k (Event.keyDown SDLK_RIGHT mod))
      = { s with mIndex := min (s.mIndex + k) ((s.history.length : Int) - 1) } := by
  induction k generalizing s with
  | zero =>
    show s = _
    cases s with
    | mk r t h i =>
      simp only [GridVisualizer.mk.injEq, true_and]
      simp only [] at hhi
      push_cast
      omega
  | succ k ih =>
    have hstep : s.handleEvent (Event.keyDown SDLK_RIGHT mod)
        = { s with mIndex := min ((s.history.length : Int) - 1) (s.mIndex + 1) } := by
      show s.keyDown SDLK_RIGHT mod = _
      unfold GridVisualizer.keyDown
      simp [hmod, SDLK_LEFT, SDLK_RIGHT, SDLK_ESCAPE, SDLK_a, SDLK_l]
    show (s.handleEvent (Event.keyDown SDLK_RIGHT mod)).processInput
        (List.replicate k (Event.keyDown SDLK_RIGHT mod)) = _
    rw [hstep]
    have hnext := ih
      { s with mIndex := min ((s.history.length : Int) - 1) (s.mIndex + 1) }
      hN (le_min (by omega) (by omega)) (min_le_left _ _)
    rw [hnext]
    cases s with
    | mk r t h i =>
      simp only [GridVisualizer.mk.injEq, true_and]
      simp only [] at hhi hlo
      push_cast
      omega

theorem processBatches_singletons (k : Nat) (s : GridVisualizer) (e : Event) :
    processBatches s (List.replicate k [e]) = s.processInput (List.replicate k e) := by
  induction k generalizing s with
  | zero => rfl
  | succ k ih => exact ih (s.handleEvent e)

/-- C8: for a non-empty list of frames appended in order to a fresh viewer
the history is that list and the cursor is 0; `addGridInfo` puts the frame
at the end and leaves the earlier frames and the cursor alone; after `k`
Right key-downs without a Shift bit, in one batch or one per batch, the
cursor is `min(k, N-1)` and the frame under it is the frame of that index in
the list.  With frames of sizes 2x2, 3x3 and 1x5, two Right presses select
index 2, the 1x5 frame, and a Shift+Left after them gives index 0. -/
theorem C8_history_and_right_presses (frames : List GridInfo) (hne : frames ≠ [])
    (k : Nat) (mod : Nat) (hmod : mod &&& KMOD_SHIFT = 0) :
    (appendAll frames).history = frames
      ∧ (appendAll frames).mIndex = 0
      ∧ (∀ (s : GridVisualizer) (f : GridInfo),
            (s.addGridInfo f).history = s.history ++ [f]
              ∧ (s.addGridInfo f).mIndex = s.mIndex)
      ∧ ((appendAll frames).processInput
            (List.replicate k (Event.keyDown SDLK_RIGHT mod))).mIndex
          = min (k : Int) ((frames.length : Int) - 1)
      ∧ processBatches (appendAll frames) (List.replicate k [Event.keyDown SDLK_RIGHT mod])
          = (appendAll frames).processInput (List.replicate k (Event.keyDown SDLK_RIGHT mod))
      ∧ vecAt ((appendAll frames).processInput
              (List.replicate k (Event.keyDown SDLK_RIGHT mod))).history
            ((appendAll frames).processInput
              (List.replicate k (Event.keyDown SDLK_RIGHT mod))).mIndex
          = frames.get? (min k (frames.length - 1))
      ∧ (frames.get? (min k (frames.length - 1))).isSome = true
      ∧ ((appendAll [GridInfo.sized 2 2, GridInfo.sized 3 3, GridInfo.sized 1 5]).processInput
            [Event.keyDown SDLK_RIGHT 0, Event.keyDown SDLK_RIGHT 0]).mIndex = 2
      ∧ vecAt ((appendAll [GridInfo.sized 2 2, GridInfo.sized 3 3, GridInfo.sized 1 5]).processInput
              [Event.keyDown SDLK_RIGHT 0, Event.keyDown SDLK_RIGHT 0]).history
            ((appendAll [GridInfo.sized 2 2, GridInfo.sized 3 3, GridInfo.sized 1 5]).processInput
              [Event.keyDown SDLK_RIGHT 0, Event.keyDown SDLK_RIGHT 0]).mIndex
          = some (GridInfo.sized 1 5)
      ∧ ((appendAll [GridInfo.sized 2 2, GridInfo.sized 3 3, GridInfo.sized 1 5]).processInput
            [Event.keyDown SDLK_RIGHT 0, Event.keyDown SDLK_RIGHT 0,
             Event.keyDown SDLK_LEFT KMOD_LSHIFT]).mIndex = 0 := by
  have hlen : 1 ≤ frames.length := by
    cases frames with
    | nil => exact absurd rfl hne
    | cons a l => simp
  have hH := appendAll_history frames
  have hI := appendAll_mIndex frames
  have hpress := right_presses k (appendAll frames) mod hmod (by rw [hH]; exact hlen)
    (by rw [hI]) (by rw [hI, hH]; omega)
  have hidx : ((appendAll frames).processInput
      (List.replicate k (Event.keyDown SDLK_RIGHT mod))).mIndex
      = min (k : Int) ((frames.length : Int) - 1) := by
    rw [hpress]
    simp only [hI, hH]
    omega
  refine ⟨hH, hI, fun s f => ⟨rfl, rfl⟩, hidx, processBatches_singletons k _ _, ?_, ?_,
    by decide, by decide, by decide⟩
  · rw [hidx, processInput_history, hH]
    unfold vecAt
    rw [if_neg (by omega)]
    congr 1
    omega
  · rw [List.get?_eq_get (by omega : min k (frames.length - 1) < frames.length)]
    rfl

/-- C8, witness: two frames, three Right presses with NumLock (bit 12) as
the only modifier. -/
theorem C8_history_and_right_presses_witness :
    ((appendAll [GridInfo.sized 1 1, GridInfo.sized 2 1]).processInput
        (List.replicate 3 (Event.keyDown SDLK_RIGHT 4096))).mIndex = 1 := by
  have h := (C8_history_and_right_presses [GridInfo.sized 1 1, GridInfo.sized 2 1]
    (by decide) 3 4096 (by decide)).2.2.2.1
  rw [h]
  decide

/-! ## Lemmas on rendering -/

theorem cStr_idem (s : List Char) : cStr (cStr s) = cStr s := by
  unfold cStr
  exact List.takeWhile_idem

theorem cStr_singleton (ch : Char) : cStr [ch] = glyphAsDrawn ch := by
  unfold cStr glyphAsDrawn
  by_cases h : ch = NUL
  · simp [h]
  · simp [h]

theorem cStr_glyphAsDrawn (ch : Char) : cStr (glyphAsDrawn ch) = glyphAsDrawn ch := by
  rw [← cStr_singleton, cStr_idem]

theorem glyphAsDrawn_length (ch : Char) : (glyphAsDrawn ch).length ≤ 1 := by
  unfold glyphAsDrawn
  split_ifs <;> simp

theorem vecAt_natCast {α : Type} (v : List α) (i : Nat) : vecAt v (i : Int) = v.get? i := by
  unfold vecAt
  simp

theorem strAt_natCast (row : List Char) (j : Nat) (h : j < row.length) :
    strAt row (j : Int) = some (row.getD j ' ') := by
  unfold strAt
  simp [h, List.getD_eq_getElem]

theorem seq_completed (a b : List DrawCmd) (c : Bool) :
    (Rendering.mk a true).seq ⟨b, c⟩ = ⟨a ++ b, c⟩ := rfl

theorem seq_calls_mem (a b : Rendering) (cmd : DrawCmd) (h : cmd ∈ (a.seq b).calls) :
    cmd ∈ a.calls ∨ cmd ∈ b.calls := by
  unfold Rendering.seq at h
  split_ifs at h
  · exact List.mem_append.1 h
  · exact Or.inl h

theorem renderCell_some (g : GridInfo) (i j : Int) (row : List Char) (ch : Char)
    (hrow : vecAt g.field i = some row) (hch : strAt row j = some ch) :
    renderCell g i j = ⟨cellCmds glyphAsDrawn ch i j, true⟩ := by
  have hg := cStr_glyphAsDrawn ch
  unfold renderCell
  rw [hrow]
  simp only [Option.some_bind, hch]
  unfold cellCmds renderText
  simp only [cStr_singleton, hg]
  by_cases hd : ch = '-'
  · simp [hd]
  · simp [hd]

theorem renderCell_wellFormed (g : GridInfo) (hwf : wellFormed g) (i j : Nat)
    (hi : i < g.H.toNat) (hj : j < g.W.toNat) :
    renderCell g i j = ⟨cellCmds glyphAsDrawn (charAt g i j) i j, true⟩ := by
  obtain ⟨hH, hW⟩ := hwf
  have hi2 : i < g.field.length := by omega
  have hrow : vecAt g.field (i : Int) = some (g.field.getD i []) := by
    rw [vecAt_natCast, List.get?_eq_get hi2, List.getD_eq_getElem _ _ hi2]
    rfl
  have hmem : g.field.getD i [] ∈ g.field := by
    rw [List.getD_eq_getElem _ _ hi2]
    exact List.getElem_mem hi2
  have hj2 : j < (g.field.getD i []).length := by
    have := hW _ hmem
    omega
  exact renderCell_some g i j _ _ hrow (strAt_natCast (g.field.getD i []) j hj2)

theorem renderCols_wellFormed (g : GridInfo) (hwf : wellFormed g) (i : Nat)
    (hi : i < g.H.toNat) (n j : Nat) (hj : j + n ≤ g.W.toNat) :
    renderCols g i n j
      = ⟨((List.range' j n).map
          (fun c => cellCmds glyphAsDrawn (charAt g i c) i c)).flatten, true⟩ := by
  induction n generalizing j with
  | zero => rfl
  | succ n ih =>
    have hnext := ih (j + 1) (by omega)
    have hcell := renderCell_wellFormed g hwf i j hi (by omega)
    show (renderCell g i j).seq (renderCols g i n ((j : Int) + 1)) = _
    have hcast : ((j : Int) + 1) = ((j + 1 : Nat) : Int) := by push_cast; rfl
    rw [hcell, hcast, hnext, seq_completed]
    simp [List.range'_succ]

theorem renderRows_wellFormed (g : GridInfo) (hwf : wellFormed g) (n i : Nat)
    (hi : i + n ≤ g.H.toNat) :
    renderRows g n i
      = ⟨((List.range' i n).map (fun r => ((List.range g.W.toNat).map
          (fun c => cellCmds glyphAsDrawn (charAt g r c) r c)).flatten)).flatten, true⟩ := by
  induction n generalizing i with
  | zero => rfl
  | succ n ih =>
    have hnext := ih (i + 1) (by omega)
    have hrow := renderCols_wellFormed g hwf i (by omega) g.W.toNat 0 (by omega)
    show (renderCols g i g.W.toNat 0).seq (renderRows g n ((i : Int) + 1)) = _
    have hzero : (0 : Int) = ((0 : Nat) : Int) := rfl
    have hcast : ((i : Int) + 1) = ((i + 1 : Nat) : Int) := by push_cast; rfl
    rw [hzero, hrow, hcast, hnext, seq_completed]
    simp [List.range'_succ, List.range_eq_range']

theorem gridCells_flatten (glyph : Char → List Char) (f : GridInfo) :
    (gridCells glyph f).flatten
      = ((List.range f.H.toNat).map (fun r => ((List.range f.W.toNat).map
          (fun c => cellCmds glyph (charAt f r c) r c)).flatten)).flatten := by
  unfold gridCells List.product
  generalize List.range f.H.toNat = rows
  generalize List.range f.W.toNat = cols
  induction rows with
  | nil => rfl
  | cons r rs ih =>
    simp only [List.flatMap_cons, List.map_append, List.flatten_append, List.map_cons,
      List.flatten_cons, ih, List.map_map]
    rfl

theorem gridCells_length (glyph : Char → List Char) (f : GridInfo) :
    (gridCells glyph f).length = f.H.toNat * f.W.toNat := by
  unfold gridCells
  rw [List.length_map]
  exact (List.length_product _ _).trans (by simp)

theorem render_at_cursor (s : GridVisualizer) (f : GridInfo)
    (hcur : vecAt s.history s.mIndex = some f) :
    s.render = (Rendering.mk [DrawCmd.setDrawColor 240 248 255 255, DrawCmd.clear,
        DrawCmd.copyText (cStr (statusText s.mIndex s.history.length f.message)) 2 2 0 0 0]
        true).seq ((renderRows f f.H.toNat 0).seq ⟨[DrawCmd.present], true⟩) := by
  have hlen : s.history.length ≠ 0 := by
    intro h0
    have hnil : s.history = [] := List.length_eq_zero.1 h0
    rw [hnil] at hcur
    unfold vecAt at hcur
    split_ifs at hcur
    simp at hcur
  unfold GridVisualizer.render
  rw [if_neg hlen, hcur]
  simp only [renderText, cStr_idem]
  rfl

theorem render_wellFormed (s : GridVisualizer) (f : GridInfo)
    (hcur : vecAt s.history s.mIndex = some f) (hwf : wellFormed f) :
    s.render = ⟨[DrawCmd.setDrawColor 240 248 255 255, DrawCmd.clear,
        DrawCmd.copyText (cStr (statusText s.mIndex s.history.length f.message)) 2 2 0 0 0]
      ++ (gridCells glyphAsDrawn f).flatten ++ [DrawCmd.present], true⟩ := by
  have hrows := renderRows_wellFormed f hwf f.H.toNat 0 (by omega)
  have hzero : ((0 : Nat) : Int) = 0 := rfl
  rw [hzero, ← List.range_eq_range', ← gridCells_flatten] at hrows
  rw [render_at_cursor s f hcur, hrows, seq_completed, seq_completed]
  simp

theorem digitChar_ne_NUL : ∀ d, d < 10 → Nat.digitChar d ≠ NUL := by decide

theorem toDigitsCore_ne_NUL (fuel n : Nat) (ds : List Char)
    (hds : ∀ c ∈ ds, c ≠ NUL) : ∀ c ∈ Nat.toDigitsCore 10 fuel n ds, c ≠ NUL := by
  induction fuel generalizing n ds with
  | zero => exact hds
  | succ fuel ih =>
    have hcons : ∀ c ∈ Nat.digitChar (n % 10) :: ds, c ≠ NUL := by
      intro c hc
      rcases List.mem_cons.1 hc with h | h
      · rw [h]; exact digitChar_ne_NUL _ (Nat.mod_lt _ (by decide))
      · exact hds c h
    unfold Nat.toDigitsCore
    simp only []
    split_ifs
    · exact hcons
    · exact ih _ _ hcons

theorem decimalNat_ne_NUL (n : Nat) : ∀ c ∈ decimalNat n, c ≠ NUL := by
  unfold decimalNat Nat.toDigits
  exact toDigitsCore_ne_NUL _ _ _ (by simp)

theorem decimalInt_ne_NUL (z : Int) : ∀ c ∈ decimalInt z, c ≠ NUL := by
  unfold decimalInt
  split_ifs
  · intro c hc
    rcases List.mem_cons.1 hc with h | h
    · rw [h]; decide
    · exact decimalNat_ne_NUL _ c h
  · exact decimalNat_ne_NUL _

theorem cStr_append (a b : List Char) (ha : ∀ c ∈ a, c ≠ NUL) :
    cStr (a ++ b) = a ++ cStr b := by
  induction a with
  | nil => rfl
  | cons x xs ih =>
    have hx : x ≠ NUL := ha x (List.mem_cons_self x xs)
    have hxs := ih (fun c hc => ha c (List.mem_cons_of_mem x hc))
    unfold cStr at *
    simp [List.takeWhile_cons, hx, hxs]

theorem cStr_statusText (c : Int) (n : Nat) (message : List Char) :
    cStr (statusText c n message) = statusAsClaimed c n (cStr message) := by
  unfold statusText statusAsClaimed
  apply cStr_append
  intro x hx
  simp only [List.mem_append] at hx
  rcases hx with (((hx | hx) | hx) | hx) | hx
  · revert x; decide
  · exact decimalInt_ne_NUL _ x hx
  · revert x; decide
  · exact decimalNat_ne_NUL _ x hx
  · revert x; decide

theorem renderCell_glyphOrShape (g : GridInfo) (i j : Int) :
    ∀ cmd ∈ (renderCell g i j).calls, glyphOrShape cmd := by
  intro cmd hcmd
  unfold renderCell at hcmd
  split at hcmd
  · simp only [List.mem_cons, List.mem_singleton, List.not_mem_nil, or_false] at hcmd
    rcases hcmd with h | h <;> (subst h; trivial)
  · rename_i ch _
    simp only [List.mem_append, List.mem_cons, List.mem_singleton, List.not_mem_nil,
      or_false] at hcmd
    rcases hcmd with (h | h) | h
    · rcases h with h | h <;> (subst h; trivial)
    · rcases h with h | h
      · subst h
        split_ifs <;> trivial
      · subst h; trivial
    · split_ifs at h
      · unfold renderText at h
        simp only [List.mem_singleton] at h
        subst h
        show (cStr (cStr [ch])).length ≤ 1
        rw [cStr_idem, cStr_singleton]
        exact glyphAsDrawn_length ch
      · simp at h

theorem renderCols_glyphOrShape (g : GridInfo) (i : Int) (n : Nat) (j : Int) :
    ∀ cmd ∈ (renderCols g i n j).calls, glyphOrShape cmd := by
  induction n generalizing j with
  | zero => intro cmd h; simp [renderCols] at h
  | succ n ih =>
    intro cmd h
    rcases seq_calls_mem _ _ cmd h with h1 | h1
    · exact renderCell_glyphOrShape g i j cmd h1
    · exact ih (j + 1) cmd h1

theorem renderRows_glyphOrShape (g : GridInfo) (n : Nat) (i : Int) :
    ∀ cmd ∈ (renderRows g n i).calls, glyphOrShape cmd := by
  induction n generalizing i with
  | zero => intro cmd h; simp [renderRows] at h
  | succ n ih =>
    intro cmd h
    rcases seq_calls_mem _ _ cmd h with h1 | h1
    · exact renderCols_glyphOrShape g i _ 0 cmd h1
    · exact ih (i + 1) cmd h1

theorem wrapInt32_fits (z : Int) (hlo : -2147483648 ≤ z) (hhi : z ≤ 2147483647) :
    wrapInt32 z = z := by
  unfold wrapInt32
  omega

theorem outerRect_fits (i j : Int) (hi : 0 ≤ i) (hi2 : i ≤ lastRow) (hj : 0 ≤ j)
    (hj2 : j ≤ lastCol + 1) : outerRect i j = cellOuter i j := by
  unfold lastRow at hi2
  unfold lastCol at hj2
  unfold outerRect cellOuter
  simp only [base_x, base_y, cell_size, FONT_SIZE, SDL_Rect.mk.injEq]
  refine ⟨?_, ?_, ?_, ?_⟩
  · rw [wrapInt32_fits (j * (12 + 2)) (by omega) (by omega), wrapInt32_fits _ (by omega) (by omega)]
    omega
  · rw [wrapInt32_fits (i * (12 + 2)) (by omega) (by omega), wrapInt32_fits _ (by omega) (by omega)]
    omega
  · decide
  · decide

theorem innerRect_fits (i j : Int) (hi : 0 ≤ i) (hi2 : i ≤ lastRow) (hj : 0 ≤ j)
    (hj2 : j ≤ lastCol) : innerRect i j = cellInner i j := by
  unfold lastRow at hi2
  unfold lastCol at hj2
  unfold innerRect cellInner cellOuter
  simp only [base_x, base_y, cell_size, FONT_SIZE, SDL_Rect.mk.injEq]
  refine ⟨?_, ?_, ?_, ?_⟩
  · rw [wrapInt32_fits (j * (12 + 2)) (by omega) (by omega), wrapInt32_fits (1 + _) (by omega) (by omega),
      wrapInt32_fits _ (by omega) (by omega)]
    omega
  · rw [wrapInt32_fits (i * (12 + 2)) (by omega) (by omega), wrapInt32_fits (12 + 10 + _) (by omega) (by omega),
      wrapInt32_fits _ (by omega) (by omega)]
    omega
  · decide
  · decide

theorem glyphAnchor_fits (i j : Int) (hi : 0 ≤ i) (hi2 : i ≤ lastRow) (hj : 0 ≤ j)
    (hj2 : j ≤ lastCol) :
    glyphAnchor i j = ((cellOuter i j).x + 3, (cellOuter i j).y + 1) := by
  unfold lastRow at hi2
  unfold lastCol at hj2
  unfold glyphAnchor cellOuter
  simp only [base_x, base_y, cell_size, FONT_SIZE, Prod.mk.injEq]
  refine ⟨?_, ?_⟩
  · rw [wrapInt32_fits (j * (12 + 2)) (by omega) (by omega), wrapInt32_fits (1 + _) (by omega) (by omega),
      wrapInt32_fits _ (by omega) (by omega)]
    omega
  · rw [wrapInt32_fits (i * (12 + 2)) (by omega) (by omega), wrapInt32_fits (12 + 10 + _) (by omega) (by omega),
      wrapInt32_fits _ (by omega) (by omega)]
    omega

theorem renderCell_sized (H W i j : Nat) (hi : i < H) (hj : j < W) :
    renderCell (GridInfo.sized H W) i j = ⟨cellCmds glyphAsDrawn ' ' i j, true⟩ := by
  apply renderCell_some (GridInfo.sized H W) i j (List.replicate W ' ') ' '
  · rw [vecAt_natCast]
    simp [GridInfo.sized, List.getElem?_replicate, hi]
  · rw [strAt_natCast _ _ (by simpa using hj)]
    simp [List.getD_eq_getElem?_getD, List.getElem?_replicate, hj]

/-! ## C6 -/

/-- C6, counterexample: a well-formed 1x1 frame whose only character is
NUL.  The cell is not `-`, so `renderText` is called for it, with the empty
text and not with the one-character string. -/
theorem C6_counterexample :
    wellFormed ⟨1, 1, [], [[NUL]]⟩
      ∧ (appendAll [⟨1, 1, [], [[NUL]]⟩]).render
          = ⟨[DrawCmd.setDrawColor 240 248 255 255, DrawCmd.clear,
              DrawCmd.copyText ['I', 'n', 'd', 'e', 'x', ' ', '1', ' ', '/', ' ', '1', ':', ' ']
                2 2 0 0 0,
              DrawCmd.setDrawColor 0 0 0 255, DrawCmd.fillRect ⟨1, 22, 15, 15⟩,
              DrawCmd.setDrawColor 230 230 250 255, DrawCmd.fillRect ⟨2, 23, 13, 13⟩,
              DrawCmd.copyText [] 4 23 0 0 0,
              DrawCmd.present], true⟩
      ∧ (appendAll [⟨1, 1, [], [[NUL]]⟩]).render
          ≠ ⟨[DrawCmd.setDrawColor 240 248 255 255, DrawCmd.clear,
              DrawCmd.copyText ['I', 'n', 'd', 'e', 'x', ' ', '1', ' ', '/', ' ', '1', ':', ' ']
                2 2 0 0 0]
            ++ (gridCells glyphAsClaimed ⟨1, 1, [], [[NUL]]⟩).flatten ++ [DrawCmd.present],
             true⟩ := by
  refine ⟨?_, by decide, by decide⟩
  unfold wellFormed
  decide

/-- C6, amended: for a viewer whose cursor is in bounds and whose current
frame `f` is well formed, `render` runs to its end and draws, after the
background and the status line and before the present, exactly `f.H * f.W`
cells, one per grid position in row-major order; each is the border colour
and the outer rectangle, then the fill colour, (255,255,255) exactly when
the character is `-` and (230,230,250) otherwise, and the inner rectangle,
then, exactly when the character is not `-`, one `renderText` call whose
text is the one-character string of that character, or the empty string
when the character is NUL. -/
theorem C6_render_cells (s : GridVisualizer) (f : GridInfo)
    (hcur : vecAt s.history s.mIndex = some f) (hwf : wellFormed f) :
    s.render = ⟨[DrawCmd.setDrawColor 240 248 255 255, DrawCmd.clear,
        DrawCmd.copyText (cStr (statusText s.mIndex s.history.length f.message)) 2 2 0 0 0]
      ++ (gridCells glyphAsDrawn f).flatten ++ [DrawCmd.present], true⟩
      ∧ ((gridCells glyphAsDrawn f).length : Int) = f.H * f.W
      ∧ (∀ ch, ch ≠ NUL → glyphAsDrawn ch = glyphAsClaimed ch)
      ∧ glyphAsDrawn NUL = [] := by
  refine ⟨render_wellFormed s f hcur hwf, ?_, ?_, by decide⟩
  · rw [gridCells_length]
    obtain ⟨hH, hW⟩ := hwf
    cases hfield : f.field with
    | nil =>
      rw [hfield] at hH
      simp only [List.length_nil, Nat.cast_zero] at hH
      rw [← hH]
      simp
    | cons row rest =>
      have hrow := hW row (by rw [hfield]; exact List.mem_cons_self row rest)
      have h1 : (f.H.toNat : Int) = f.H := Int.toNat_of_nonneg (by omega)
      have h2 : (f.W.toNat : Int) = f.W := Int.toNat_of_nonneg (by omega)
      push_cast
      rw [h1, h2]
  · intro ch hch
    unfold glyphAsDrawn glyphAsClaimed
    rw [if_neg hch]

/-- C6, witness: the frame `["-x"]` under the cursor. -/
theorem C6_render_cells_witness :
    (appendAll [⟨1, 2, ['o', 'k'], [['-', 'x']]⟩]).render
      = ⟨[DrawCmd.setDrawColor 240 248 255 255, DrawCmd.clear,
          DrawCmd.copyText
            ['I', 'n', 'd', 'e', 'x', ' ', '1', ' ', '/', ' ', '1', ':', ' ', 'o', 'k'] 2 2 0 0 0,
          DrawCmd.setDrawColor 0 0 0 255, DrawCmd.fillRect ⟨1, 22, 15, 15⟩,
          DrawCmd.setDrawColor 255 255 255 255, DrawCmd.fillRect ⟨2, 23, 13, 13⟩,
          DrawCmd.setDrawColor 0 0 0 255, DrawCmd.fillRect ⟨15, 22, 15, 15⟩,
          DrawCmd.setDrawColor 230 230 250 255, DrawCmd.fillRect ⟨16, 23, 13, 13⟩,
          DrawCmd.copyText ['x'] 18 23 0 0 0,
          DrawCmd.present], true⟩ := by
  have h := (C6_render_cells (appendAll [⟨1, 2, ['o', 'k'], [['-', 'x']]⟩])
    ⟨1, 2, ['o', 'k'], [['-', 'x']]⟩ (by decide) (by unfold wellFormed; decide)).1
  rw [h]
  decide

/-! ## C9 -/

/-- C9, counterexample: a frame whose message is `a`, NUL, `b`.  The status
text drawn stops before the NUL; the claimed string holds the whole
message. -/
theorem C9_counterexample :
    (appendAll [⟨0, 0, ['a', NUL, 'b'], []⟩]).render
        = ⟨[DrawCmd.setDrawColor 240 248 255 255, DrawCmd.clear,
            DrawCmd.copyText
              ['I', 'n', 'd', 'e', 'x', ' ', '1', ' ', '/', ' ', '1', ':', ' ', 'a'] 2 2 0 0 0,
            DrawCmd.present], true⟩
      ∧ statusAsClaimed 0 1 ['a', NUL, 'b']
          = ['I', 'n', 'd', 'e', 'x', ' ', '1', ' ', '/', ' ', '1', ':', ' ', 'a', NUL, 'b']
      ∧ statusAsClaimed 0 1 ['a', NUL, 'b']
          ≠ ['I', 'n', 'd', 'e', 'x', ' ', '1', ' ', '/', ' ', '1', ':', ' ', 'a'] := by
  decide

/-- C9, amended: for a viewer whose cursor `c` is in bounds of a history of
length `N`, the calls of `render` are the background clear, then one status
string at pixel `(2, 2)` in colour `(0, 0, 0)`, then the calls of the cell
loops and the present; the status string is `"Index "`, the decimal form of
`c + 1`, `" / "`, the decimal form of `N`, `": "` and the message of the
current frame up to its first NUL character (the whole message when it has
none); it has at least 11 characters, and every call after it is a
rectangle, a colour, the present or a text of at most one character, so it
is the only status string and it comes before every cell.  This holds
whether or not the cell loops later read the field out of bounds. -/
theorem C9_status_line (s : GridVisualizer) (f : GridInfo)
    (hcur : vecAt s.history s.mIndex = some f) :
    s.render.calls
        = [DrawCmd.setDrawColor 240 248 255 255, DrawCmd.clear,
            DrawCmd.copyText (statusAsClaimed s.mIndex s.history.length (cStr f.message))
              2 2 0 0 0]
          ++ ((renderRows f f.H.toNat 0).seq ⟨[DrawCmd.present], true⟩).calls
      ∧ (∀ cmd ∈ ((renderRows f f.H.toNat 0).seq ⟨[DrawCmd.present], true⟩).calls,
          glyphOrShape cmd)
      ∧ 11 ≤ (statusAsClaimed s.mIndex s.history.length (cStr f.message)).length
      ∧ ((∀ ch ∈ f.message, ch ≠ NUL) → cStr f.message = f.message) := by
  refine ⟨?_, ?_, ?_, ?_⟩
  · rw [render_at_cursor s f hcur, cStr_statusText]
    rfl
  · intro cmd hcmd
    rcases seq_calls_mem _ _ cmd hcmd with h | h
    · exact renderRows_glyphOrShape f _ 0 cmd h
    · simp only [List.mem_singleton] at h
      subst h
      trivial
  · unfold statusAsClaimed
    simp only [List.length_append, List.length_cons, List.length_nil]
    omega
  · intro h
    have := cStr_append f.message [] h
    simpa [cStr] using this

/-- C9, witness: two frames, cursor on the second, whose field is shorter
than its announced height. -/
theorem C9_status_line_witness :
    (((appendAll [GridInfo.empty, ⟨1, 1, ['h', 'i'], []⟩]).processInput
        [Event.keyDown SDLK_l 0]).render.calls).take 3
      = [DrawCmd.setDrawColor 240 248 255 255, DrawCmd.clear,
          DrawCmd.copyText
            ['I', 'n', 'd', 'e', 'x', ' ', '2', ' ', '/', ' ', '2', ':', ' ', 'h', 'i']
            2 2 0 0 0] := by
  have h := (C9_status_line
    ((appendAll [GridInfo.empty, ⟨1, 1, ['h', 'i'], []⟩]).processInput [Event.keyDown SDLK_l 0])
    ⟨1, 1, ['h', 'i'], []⟩ (by decide)).1
  rw [h]
  decide

/-! ## C10 -/

/-- C10, counterexample: the cell in row 0 and column 153391689 of the frame
`GridInfo(1, 153391690)`.  Its outer rectangle starts at `x = 2147483647`;
the `x` of its inner rectangle, one more, does not fit an `int` and comes
out as `-2147483648`, so the inner rectangle is not `(x + 1, y + 1, 13, 13)`
and does not lie inside the outer one.  In row 153391688 the `y` of the
outer rectangle is not `22 + 14 i` either. -/
theorem C10_counterexample :
    renderCell (GridInfo.sized 1 153391690) 0 153391689
        = ⟨[DrawCmd.setDrawColor 0 0 0 255, DrawCmd.fillRect ⟨2147483647, 22, 15, 15⟩,
            DrawCmd.setDrawColor 230 230 250 255, DrawCmd.fillRect ⟨-2147483648, 23, 13, 13⟩,
            DrawCmd.copyText [' '] (-2147483646) 23 0 0 0], true⟩
      ∧ cellInner 0 153391689 = ⟨2147483648, 23, 13, 13⟩
      ∧ ¬ (innerRect 0 153391689).inside (outerRect 0 153391689)
      ∧ outerRect 153391688 0 = ⟨1, -2147483642, 15, 15⟩
      ∧ cellOuter 153391688 0 = ⟨1, 2147483654, 15, 15⟩ := by
  refine ⟨?_, by decide, ?_, by decide, by decide⟩
  · have h := renderCell_sized 1 153391690 0 153391689 (by decide) (by decide)
    have hc : cellCmds glyphAsDrawn ' ' ((0 : Nat) : Int) ((153391689 : Nat) : Int)
        = [DrawCmd.setDrawColor 0 0 0 255, DrawCmd.fillRect ⟨2147483647, 22, 15, 15⟩,
            DrawCmd.setDrawColor 230 230 250 255, DrawCmd.fillRect ⟨-2147483648, 23, 13, 13⟩,
            DrawCmd.copyText [' '] (-2147483646) 23 0 0 0] := by decide
    rw [hc] at h
    exact h
  · intro hin
    have hi : innerRect 0 153391689 = ⟨-2147483648, 23, 13, 13⟩ := by decide
    have ho : outerRect 0 153391689 = ⟨2147483647, 22, 15, 15⟩ := by decide
    rw [hi, ho] at hin
    have hp := hin (-2147483648) 23 (by simp [SDL_Rect.contains])
    simp [SDL_Rect.contains] at hp

/-- C10, amended: the cell size is 14.  For all grid positions `(i, j)` and
`(i2, j2)` with rows in `[0, 153391687]` and columns in `[0, 153391688]`
(the positions whose pixel coordinates fit a 32-bit `int`): wherever
`render` draws the cell `(i, j)` its outer rectangle is `x = 1 + 14 j`,
`y = 22 + 14 i`, 15 by 15, its inner rectangle `(x + 1, y + 1, 13, 13)` and
its glyph anchor `(x + 3, y + 1)`; the inner rectangle lies inside the outer
one, the anchor inside the inner one, and when `(i2, j2)` is another cell
its outer rectangle has no pixel in common with the inner rectangle of
`(i, j)`.  Horizontal and vertical neighbours share exactly one line of
pixels of their outer rectangles. -/
theorem C10_cell_geometry (i j i2 j2 : Int)
    (hi : 0 ≤ i) (hi' : i ≤ lastRow) (hj : 0 ≤ j) (hj' : j ≤ lastCol)
    (hi2 : 0 ≤ i2) (hi2' : i2 ≤ lastRow) (hj2 : 0 ≤ j2) (hj2' : j2 ≤ lastCol)
    (hother : (i2, j2) ≠ (i, j)) :
    cell_size = 14
      ∧ (∀ (g : GridInfo) (row : List Char) (ch : Char),
          vecAt g.field i = some row → strAt row j = some ch →
          renderCell g i j = ⟨cellCmds glyphAsDrawn ch i j, true⟩)
      ∧ outerRect i j = ⟨1 + 14 * j, 22 + 14 * i, 15, 15⟩
      ∧ innerRect i j = ⟨1 + 14 * j + 1, 22 + 14 * i + 1, 13, 13⟩
      ∧ glyphAnchor i j = (1 + 14 * j + 3, 22 + 14 * i + 1)
      ∧ (innerRect i j).inside (outerRect i j)
      ∧ (innerRect i j).contains (glyphAnchor i j).1 (glyphAnchor i j).2
      ∧ (outerRect i2 j2).disjointFrom (innerRect i j)
      ∧ (∀ px py : Int,
          ((outerRect i j).contains px py ∧ (outerRect i (j + 1)).contains px py)
            ↔ (px = 1 + 14 * (j + 1) ∧ 22 + 14 * i ≤ py ∧ py < 22 + 14 * i + 15))
      ∧ (i + 1 ≤ lastRow → ∀ px py : Int,
          ((outerRect i j).contains px py ∧ (outerRect (i + 1) j).contains px py)
            ↔ (py = 22 + 14 * (i + 1) ∧ 1 + 14 * j ≤ px ∧ px < 1 + 14 * j + 15)) := by
  have ho := outerRect_fits i j hi hi' hj (by omega)
  have hin := innerRect_fits i j hi hi' hj hj'
  have ha := glyphAnchor_fits i j hi hi' hj hj'
  have ho2 := outerRect_fits i2 j2 hi2 hi2' hj2 (by omega)
  have hright := outerRect_fits i (j + 1) hi hi' (by omega) (by omega)
  refine ⟨by decide, fun g row ch hrow hch => renderCell_some g i j row ch hrow hch,
    ho, hin, ha, ?_, ?_, ?_, ?_, ?_⟩
  · rw [ho, hin]
    intro px py h
    simp only [SDL_Rect.contains, cellInner, cellOuter] at *
    omega
  · rw [hin, ha]
    simp only [SDL_Rect.contains, cellInner, cellOuter]
    omega
  · rw [ho2, hin]
    intro px py h
    have hne : i2 ≠ i ∨ j2 ≠ j := by
      by_contra hc
      push_neg at hc
      exact hother (by rw [hc.1, hc.2])
    simp only [SDL_Rect.contains, cellInner, cellOuter] at h
    omega
  · rw [ho, hright]
    intro px py
    simp only [SDL_Rect.contains, cellOuter]
    omega
  · intro hdown
    rw [ho, outerRect_fits (i + 1) j (by omega) hdown hj (by omega)]
    intro px py
    simp only [SDL_Rect.contains, cellOuter]
    omega

/-- C10, witness: the cell in row 1, column 2 of a 2x3 frame against its
left neighbour. -/
theorem C10_cell_geometry_witness :
    renderCell (GridInfo.sized 2 3) 1 2 = ⟨cellCmds glyphAsDrawn ' ' 1 2, true⟩
      ∧ innerRect 1 2 = ⟨30, 37, 13, 13⟩
      ∧ (outerRect 1 1).disjointFrom (innerRect 1 2) :=
  ⟨(C10_cell_geometry 1 2 1 1 (by decide) (by decide) (by decide) (by decide) (by decide)
      (by decide) (by decide) (by decide) (by decide)).2.1
      (GridInfo.sized 2 3) [' ', ' ', ' '] ' ' (by decide) (by decide),
    (C10_cell_geometry 1 2 1 1 (by decide) (by decide) (by decide) (by decide) (by decide)
      (by decide) (by decide) (by decide) (by decide)).2.2.2.1,
    (C10_cell_geometry 1 2 1 1 (by decide) (by decide) (by decide) (by decide) (by decide)
      (by decide) (by decide) (by decide) (by decide)).2.2.2.2.2.2.2.1⟩

end grid_visualizer
